import Mathlib

/-
Shallow embedding of pydantic-core's validation-error aggregation and reporting
subsystem, `src/errors/validation_exception.rs`.

The embedding keeps the source's structure: `ValidationError` is the aggregate
tree, `PyLineError` the leaf failure, and the three output views (`errors`,
`json`, `display`/`pretty`) are translated function by function.  Companion
modules that the source file uses but that are not part of the given sources
(`location.rs`, `types.rs`, `build_tools.rs`, the serializers) are modelled
from the specification; each such definition carries a doc comment starting
with `Modelled from the spec:`.

Machine strings are Lean `String`s; Rust's `str::len` and byte slicing are
modelled by an explicit UTF-8 byte-size function (`csize`/`utf8Len`) and a
byte-aligned splitting function (`takeUtf8Bytes`), so that the byte-versus-
character behaviour of the truncation macro is captured faithfully, including
the panic on a byte offset that is not a character boundary (modelled as
`Option.none`).
-/

/-- Modelled from the spec: the host exceptions raised by this subsystem
(key-error, type-error, value-error and the lookup error raised for an
unknown error kind).  The host exception machinery itself is external. -/
inductive PyErr where
  | keyError (msg : String)
  | typeError (msg : String)
  | valueError (msg : String)
  | lookupError (msg : String)
deriving DecidableEq

/-- Modelled from the spec: the textual form of a host exception, used when a
failure is interpolated into another message (`err.to_string()`). -/
def PyErr.display : PyErr → String
  | .keyError m => "KeyError: " ++ m
  | .typeError m => "TypeError: " ++ m
  | .valueError m => "ValueError: " ++ m
  | .lookupError m => "LookupError: " ++ m

/-- True exactly when the failure is a type-error.  Used to state refutations. -/
def PyErr.isTypeError : PyErr → Bool
  | .typeError _ => true
  | _ => false

/-- Modelled from the spec: one segment of a `Location` path, either an
integer index or a string key (`LocItem` in `src/errors/location.rs`,
which is not under `src/`). -/
inductive LocItem where
  | key (k : String)
  | index (i : Int)
deriving DecidableEq

/-- Modelled from the spec: a `Location` is an ordered sequence of path
segments (`src/errors/location.rs` is not under `src/`). -/
abbrev Location := List LocItem

/-- Modelled from the spec: prefixing produces a new Location equal to
`prefix ++ self`, never mutating either operand (`Location::with_prefix`). -/
def Location.withPre (l : Location) (pre : Location) : Location := pre ++ l

/-- Modelled from the spec: textual rendering of one segment. -/
def LocItem.displayStr : LocItem → String
  | .key k => k
  | .index i => toString i

/-- Modelled from the spec: the textual rendering of a Location prints each
segment left-to-right, separated by a delimiter. -/
def Location.displayStr (l : Location) : String :=
  String.intercalate "." (l.map LocItem.displayStr)

/-- Modelled from the spec: the host-language values this subsystem touches.
An offending input value is opaque to the subsystem; the shapes below are the
ones its construction surface inspects (dicts, strings, ints, lists, the
`PydanticCustomError` value, and anything else as `other`).  The
`customError` variant carries the caller-supplied (type-string, message,
optional structured context) triple. -/
inductive PyAny where
  | none
  | bool (b : Bool)
  | int (n : Int)
  | str (s : String)
  | list (xs : List PyAny)
  | dict (entries : List (String × PyAny))
  | customError (ts : String) (msg : String) (ctx : Option (List (String × PyAny)))
  | other

/-- A host dict, as an ordered association list (host dicts preserve
insertion order). -/
abbrev PyDict := List (String × PyAny)

/-- Lookup of a key in a host dict (`dict.get_item`). -/
def dictGet (d : PyDict) (k : String) : Option PyAny :=
  (d.find? (fun e => e.1 = k)).map (fun e => e.2)

/-- Modelled from the spec: the rendering-mode flag (`ErrorMode` in
`src/errors/types.rs`, not under `src/`); it affects message phrasing only. -/
inductive ErrorMode where
  | python
  | json
deriving DecidableEq

/-- Modelled from the spec: `ErrorType` (`src/errors/types.rs`, not under
`src/`) is a closed taxonomy of built-in kinds plus one open custom kind.
The built-in variant carries its stable type-string, the outcome of the
opaque message-template rendering for the kind (rendering is an external
concern, so the outcome is carried as data), and its optional context
record.  The custom variant carries the caller triple verbatim. -/
inductive ErrorType where
  | builtin (typeString : String) (renderedMsg : Except PyErr String) (ctx : Option PyDict)
  | customError (customType : String) (customMsg : String) (customCtx : Option PyDict)

/-- Modelled from the spec: the stable machine key of an error kind; for the
custom variant it is the caller-chosen string (`ErrorType::type_string`). -/
def ErrorType.type_string : ErrorType → String
  | .builtin ts _ _ => ts
  | .customError ts _ _ => ts

/-- Modelled from the spec: `ErrorType::render_message` — for a built-in kind
the (externally rendered) template text, which can fail defensively; for the
custom variant the caller-supplied message verbatim, ignoring the mode. -/
def ErrorType.render_message (et : ErrorType) (_mode : ErrorMode) : Except PyErr String :=
  match et with
  | .builtin _ m _ => m
  | .customError _ m _ => .ok m

/-- Modelled from the spec: `ErrorType::py_dict` — the context as a structured
record, or none when the kind carries no context. -/
def ErrorType.py_dict : ErrorType → Except PyErr (Option PyDict)
  | .builtin _ _ c => .ok c
  | .customError _ _ c => .ok c

/-- Modelled from the spec: a representative sample of the closed set of
recognized built-in kind strings (the full table lives in `types.rs`). -/
def knownKinds : List String :=
  ["missing", "int_type", "string_type", "greater_than", "value_error", "json_invalid"]

/-- Modelled from the spec: the rendered template text of a built-in kind
(message templates are an external concern; representative texts). -/
def builtinMessage (kind : String) : String :=
  if kind = "missing" then "Field required"
  else if kind = "int_type" then "Input should be a valid integer"
  else if kind = "string_type" then "Input should be a valid string"
  else if kind = "greater_than" then "Input should be greater than the given value"
  else "Invalid input"

/-- Modelled from the spec: the required context keys of a built-in kind
(representative: `greater_than` needs its bound). -/
def requiredContext (kind : String) : List String :=
  if kind = "greater_than" then ["gt"] else []

/-- Modelled from the spec: `ErrorType::new` fails with a lookup error if the
kind name is not a recognized built-in key, and with a validation error if a
required context field for that kind is absent; otherwise it builds the
built-in variant. -/
def ErrorType.new (kind : String) (ctx : Option PyDict) : Except PyErr ErrorType :=
  if kind ∈ knownKinds then
    if (requiredContext kind).all (fun k => (dictGet (ctx.getD []) k).isSome) then
      .ok (.builtin kind (.ok (builtinMessage kind)) ctx)
    else
      .error (.valueError ("Missing required context for error type " ++ kind))
  else
    .error (.lookupError ("Unknown error type: " ++ kind))

/-- Modelled from the spec: `ErrorType::new_custom_error` always succeeds and
wraps the caller data verbatim. -/
def ErrorType.new_custom_error (ts msg : String) (ctx : Option PyDict) : ErrorType :=
  .customError ts msg ctx

/-- `PyLineError`: one leaf failure = error kind, location, offending input
value (`pub struct PyLineError` in `validation_exception.rs`). -/
structure PyLineError where
  errorType : ErrorType
  location : Location
  inputValue : PyAny

/-- `PyLineError::with_prefix`: a copy with `location` replaced by
`prefix ++ location`, the original untouched. -/
def PyLineError.withPre (e : PyLineError) (pre : Location) : PyLineError :=
  { e with location := e.location.withPre pre }

/-- `PyLineError::get_error_url`: the URL prefix followed by the type string. -/
def PyLineError.get_error_url (e : PyLineError) (urlPre : String) : String :=
  urlPre ++ e.errorType.type_string

/-- Modelled from the spec: `LocItem::try_from` accepts an integer or a
string segment and fails with a type-mismatch error otherwise
(`src/errors/location.rs` is not under `src/`). -/
def LocItem.tryFrom (a : PyAny) : Except PyErr LocItem :=
  match a with
  | .str s => .ok (.key s)
  | .int n => .ok (.index n)
  | _ => .error (.typeError "Item in a location must be a string or an int")

/-- Modelled from the spec: `Location::try_from` on the optional `loc` field —
`loc` is a required field, so its absence is a key-error naming it; when
present it must be a sequence of index/key segments
(`src/errors/location.rs` is not under `src/`). -/
def Location.tryFrom (o : Option PyAny) : Except PyErr Location :=
  match o with
  | Option.some (.list xs) => xs.mapM LocItem.tryFrom
  | Option.some _ => .error (.typeError "Location must be a sequence of ints and strings")
  | Option.none => .error (.keyError "loc")

/-- Modelled from the spec: `dict.get_as::<Option<&PyDict>>` from
`build_tools.rs` (not under `src/`) — absent or none-valued keys give none,
a present dict gives it, anything else is a type-error. -/
def get_as_dict (d : PyDict) (k : String) : Except PyErr (Option PyDict) :=
  match dictGet d k with
  | Option.none => .ok Option.none
  | Option.some (.dict c) => .ok (Option.some c)
  | Option.some .none => .ok Option.none
  | Option.some _ => .error (.typeError ("ctx must be a dict: " ++ k))

/-- `TryFrom<&PyAny> for PyLineError`: building a leaf failure from a host
record.  Mirrors the source order: downcast to a dict; fetch the required
`type` field (key-error naming it if absent); a string `type` goes through
`ErrorType::new` with the optional `ctx`, a `PydanticCustomError` value goes
through `new_custom_error`, anything else is a type-error; then the `loc`
field is parsed, and a missing optional `input` defaults to the none value. -/
def PyLineError.tryFrom (value : PyAny) : Except PyErr PyLineError :=
  match value with
  | .dict d =>
    Except.bind
      (match dictGet d "type" with
       | Option.some t => Except.ok t
       | Option.none => Except.error (.keyError "type"))
      (fun typeRaw =>
        Except.bind
          (match typeRaw with
           | .str s => Except.bind (get_as_dict d "ctx") (fun ctx => ErrorType.new s ctx)
           | .customError ts msg ctx => Except.ok (ErrorType.new_custom_error ts msg ctx)
           | _ => Except.error (.typeError "`type` should be a `str` or `PydanticCustomError`"))
          (fun errorType =>
            Except.bind (Location.tryFrom (dictGet d "loc"))
              (fun location =>
                Except.ok { errorType := errorType, location := location,
                            inputValue := (dictGet d "input").getD PyAny.none })))
  | _ => .error (.typeError "argument must be a dict")

/-- Modelled from the spec: `safe_repr` from `build_tools.rs` (not under
`src/`) — the host textual representation of an opaque input value. -/
def safe_repr : PyAny → String
  | .none => "None"
  | .bool true => "True"
  | .bool false => "False"
  | .int n => toString n
  | .str s => "\"" ++ s ++ "\""
  | .list _ => "[...]"
  | .dict _ => "\x7b...\x7d"
  | .customError _ m _ => m
  | .other => "<unrepresentable>"

/-- Modelled from the spec: the host type name of an input value
(`input_value.get_type().name()`), none when unobtainable. -/
def type_name : PyAny → Option String
  | .none => Option.some "NoneType"
  | .bool _ => Option.some "bool"
  | .int _ => Option.some "int"
  | .str _ => Option.some "str"
  | .list _ => Option.some "list"
  | .dict _ => Option.some "dict"
  | .customError _ _ _ => Option.some "PydanticCustomError"
  | .other => Option.none

/-- UTF-8 byte size of one character (1, 2, 3 or 4), as used by Rust's
`str::len`. -/
def csize (c : Char) : Nat :=
  if c.val < 0x80 then 1 else if c.val < 0x800 then 2
  else if c.val < 0x10000 then 3 else 4

/-- UTF-8 byte size of a character sequence. -/
def byteSum (cs : List Char) : Nat := (cs.map csize).sum

/-- UTF-8 byte size of a string: Rust's `str::len`. -/
def utf8Len (s : String) : Nat := byteSum s.data

/-- The characters making up the first `n` UTF-8 bytes of a sequence, or
`Option.none` when byte offset `n` is not a character boundary (where Rust's
byte slicing `&s[0..n]` panics). -/
def takeUtf8Bytes : List Char → Nat → Option (List Char)
  | _, 0 => Option.some []
  | [], _ + 1 => Option.none
  | c :: cs, n + 1 =>
    if csize c ≤ n + 1 then (takeUtf8Bytes cs (n + 1 - csize c)).map (c :: ·) else Option.none

/-- The characters making up the last `n` UTF-8 bytes of a sequence, or
`Option.none` when byte offset `len - n` is not a character boundary (where
Rust's `&s[s.len() - n..]` panics). -/
def lastUtf8Bytes (cs : List Char) (n : Nat) : Option (List Char) :=
  (takeUtf8Bytes cs.reverse n).map List.reverse

/-- The `truncate_input_value!` macro: writes `", input_value="` followed by
the value onto `out`; if the value's byte length exceeds 50, writes its first
25 bytes, a three-dot ellipsis and its last 24 bytes instead.  The byte
slices panic (here: `Option.none`) when offset 25 or `len - 24` is not a
character boundary. -/
def truncate_input_value (out : String) (value : String) : Option String :=
  if 50 < utf8Len value then
    match takeUtf8Bytes value.data 25, lastUtf8Bytes value.data 24 with
    | Option.some first25, Option.some last24 =>
      Option.some (out ++ ", input_value=" ++ String.mk first25 ++ "..." ++ String.mk last24)
    | _, _ => Option.none
  else
    Option.some (out ++ ", input_value=" ++ value)

/-- Modelled from the spec: `location.to_object(py)` — the ordered sequence of
raw segments for external consumption. -/
def locToObject (l : Location) : PyAny :=
  .list (l.map (fun i => match i with
    | .key k => .str k
    | .index n => .int n))

/-- `PyLineError::as_dict`: the structured record of one leaf, with keys in
fixed order `type, loc, msg, input[, ctx][, url]`; `ctx` present iff context
is requested and the kind has context; `url` present iff a URL prefix is
supplied and the kind is not the custom variant ("Don't add URLs for custom
errors").  Fails only by propagating a render failure. -/
def PyLineError.as_dict (e : PyLineError) (urlPre : Option String)
    (includeContext : Bool) (mode : ErrorMode) : Except PyErr PyDict := do
  let msg ← e.errorType.render_message mode
  let ctxEntries ←
    if includeContext then
      match e.errorType.py_dict with
      | .ok (Option.some c) => Except.ok [("ctx", PyAny.dict c)]
      | .ok Option.none => Except.ok []
      | .error err => Except.error err
    else Except.ok []
  let urlEntries : PyDict :=
    match urlPre with
    | Option.some up =>
      match e.errorType with
      | .customError _ _ _ => []
      | _ => [("url", PyAny.str (e.get_error_url up))]
    | Option.none => []
  Except.ok ([("type", PyAny.str e.errorType.type_string),
              ("loc", locToObject e.location),
              ("msg", PyAny.str msg),
              ("input", e.inputValue)] ++ ctxEntries ++ urlEntries)

/-- The body of `PyLineError::pretty` with the already-resolved message text
as a parameter: location, two spaces, the message, `[type=...`, the
(possibly truncated) input value, the input type when obtainable, then either
a closing bracket or (URL prefix active and kind not custom) the
documentation line.  `Option.none` models the byte-boundary panic inside the
truncation macro; writes onto a string buffer themselves cannot fail. -/
def prettyWithMsg (e : PyLineError) (urlPre : Option String) (message : String) :
    Option String :=
  let o1 := Location.displayStr e.location ++ "  " ++ message ++ " [type="
    ++ e.errorType.type_string
  let inputStr := safe_repr e.inputValue
  match truncate_input_value o1 inputStr with
  | Option.none => Option.none
  | Option.some o2 =>
    let o3 := match type_name e.inputValue with
      | Option.some tn => o2 ++ ", input_type=" ++ tn
      | Option.none => o2
    Option.some (match urlPre with
      | Option.some up =>
        match e.errorType with
        | .customError _ _ _ => o3 ++ "]"
        | _ => o3 ++ "]\n    For further information visit " ++ e.get_error_url up
      | Option.none => o3 ++ "]")

/-- `PyLineError::pretty`: renders the message, substituting
`(error rendering message: <failure>)` when rendering fails, then builds the
one-paragraph diagnostic text. -/
def PyLineError.pretty (e : PyLineError) (mode : ErrorMode) (urlPre : Option String) :
    Option String :=
  prettyWithMsg e urlPre
    (match e.errorType.render_message mode with
     | .ok m => m
     | .error err => "(error rendering message: " ++ err.display ++ ")")

/-- `pretty_py_line_errors`: the pretty texts of the leaves joined by
newlines.  (The source's fallback for `fmt::Error` is unreachable, since
writing to a string buffer cannot fail; `Option.none` models only the
byte-boundary panic of the truncation macro.) -/
def pretty_py_line_errors (mode : ErrorMode) (les : List PyLineError)
    (urlPre : Option String) : Option String :=
  (les.mapM (fun e => PyLineError.pretty e mode urlPre)).map (String.intercalate "\n")

/-- The JSON values produced by the streaming serializer (the byte-level
formatting, compact or indented, is done by the external `serde_json`
formatter and affects whitespace only). -/
inductive JValue where
  | null
  | bool (b : Bool)
  | int (n : Int)
  | str (s : String)
  | arr (xs : List JValue)
  | obj (kvs : List (String × JValue))

mutual

/-- Modelled from the spec: the generic value-to-JSON projection
(`extra.serialize_infer`, an external collaborator from the serializers). -/
def serialize_infer : PyAny → JValue
  | .none => .null
  | .bool b => .bool b
  | .int n => .int n
  | .str s => .str s
  | .list xs => .arr (serializeInferList xs)
  | .dict es => .obj (serializeInferEntries es)
  | .customError _ m _ => .str m
  | .other => .null

/-- Elementwise projection of a list value. -/
def serializeInferList : List PyAny → List JValue
  | [] => []
  | x :: xs => serialize_infer x :: serializeInferList xs

/-- Entrywise projection of a dict value. -/
def serializeInferEntries : List (String × PyAny) → List (String × JValue)
  | [] => []
  | (k, v) :: es => (k, serialize_infer v) :: serializeInferEntries es

end

/-- Modelled from the spec: the serde serialization of a `Location`
(the ordered segments). -/
def locToJson (l : Location) : JValue :=
  .arr (l.map (fun i => match i with
    | .key k => .str k
    | .index n => .int n))

/-- `py_err_json`: a host failure turned into a serializer error
(`S::Error::custom(error.to_string())`); serializer errors are their text. -/
def py_err_json (e : PyErr) : String := e.display

/-- `PyLineErrorSerializer::serialize`: one leaf streamed as a JSON map with
entries in order `type, loc, msg, input[, ctx][, url]`.  A message-render or
context failure aborts with a serializer error.  Note that, unlike `as_dict`
and `pretty`, this serializer appends the `url` entry whenever a URL prefix
is supplied, without the custom-kind check. -/
def serializeLineError (e : PyLineError) (urlPre : Option String)
    (includeContext : Bool) (mode : ErrorMode) : Except String (List (String × JValue)) :=
  Except.bind
    (match e.errorType.render_message mode with
     | .ok m => Except.ok m
     | .error err => Except.error (py_err_json err))
    (fun msg =>
      Except.bind
        (if includeContext then
          match e.errorType.py_dict with
          | .ok (Option.some c) => Except.ok [("ctx", serialize_infer (PyAny.dict c))]
          | .ok Option.none => Except.ok []
          | .error err => Except.error (py_err_json err)
        else Except.ok [])
        (fun ctxEntries =>
          Except.ok ([("type", JValue.str e.errorType.type_string),
                      ("loc", locToJson e.location),
                      ("msg", JValue.str msg),
                      ("input", serialize_infer e.inputValue)]
            ++ ctxEntries
            ++ (match urlPre with
                | Option.some up => [("url", JValue.str (e.get_error_url up))]
                | Option.none => []))))

/-- `json_py_err`: a serialization failure surfaced to the caller as a
value-error wrapping the underlying cause. -/
def json_py_err (e : String) : PyErr :=
  .valueError ("Error serializing ValidationError to JSON: " ++ e)

/-- `_get_include_url_env` / `include_url_env`: URLs are included by default;
setting the environment toggle to a non-empty value disables them.  The
process-wide once-cell is modelled by passing the resolved variable. -/
def include_url_env (envVar : Option String) : Bool :=
  match envVar with
  | Option.some v => v.isEmpty
  | Option.none => true

/-- `get_url_prefix`: the documentation-URL prefix, derived once from the
version identifier, or none when URLs are disabled. -/
def get_url_pre (includeUrl : Bool) (version : String) : Option String :=
  if includeUrl then Option.some ("https://errors.pydantic.dev/" ++ version ++ "/v/")
  else Option.none

/-- `ValidationError`: the aggregate node — own leaf failures, nested
aggregates, rendering mode, title/message, and the location prefix applied to
every failure reachable through the nested aggregates.  (Shared `Arc`
ownership is structural sharing in Lean.) -/
inductive ValidationError where
  | mk (lineErrors : List PyLineError) (valErrors : List ValidationError)
       (errorMode : ErrorMode) (message : String) (locPre : Location)

/-- The `line_errors` field. -/
def ValidationError.lineErrors : ValidationError → List PyLineError
  | .mk le _ _ _ _ => le

/-- The `validation_errors` field. -/
def ValidationError.valErrors : ValidationError → List ValidationError
  | .mk _ ve _ _ _ => ve

/-- The `error_mode` field. -/
def ValidationError.errorMode : ValidationError → ErrorMode
  | .mk _ _ em _ _ => em

/-- The `message` field (exposed as `title`). -/
def ValidationError.message : ValidationError → String
  | .mk _ _ _ m _ => m

/-- The `loc_prefix` field. -/
def ValidationError.locPre : ValidationError → Location
  | .mk _ _ _ _ p => p

mutual

/-- `ValidationError::flatten_errors`: start from a copy of the node's own
line errors, then for each nested aggregate extend with its flattened errors,
each prefixed with this node's `loc_prefix`. -/
def ValidationError.flatten_errors : ValidationError → List PyLineError
  | .mk le ve _ _ p => ValidationError.flattenFold p ve le

/-- The `for v in &self.validation_errors { res.extend(...) }` loop of
`flatten_errors`, with `res` as the accumulator. -/
def ValidationError.flattenFold (p : Location) :
    List ValidationError → List PyLineError → List PyLineError
  | [], res => res
  | v :: vs, res =>
    ValidationError.flattenFold p vs (res ++ v.flatten_errors.map (fun e => e.withPre p))

end

mutual

/-- `ValidationError::error_count`: own leaf count plus the recursive sum of
the nested aggregates' counts. -/
def ValidationError.error_count : ValidationError → Nat
  | .mk le ve _ _ _ => ValidationError.countFold ve le.length

/-- The `for v in &self.validation_errors { res += v.error_count() }` loop,
with `res` as the accumulator. -/
def ValidationError.countFold : List ValidationError → Nat → Nat
  | [], res => res
  | v :: vs, res => ValidationError.countFold vs (res + v.error_count)

end

/-- An item handed to `partition_errors`: either a value that extracts as an
already-built `ValidationError`, or any other host value (which must then
parse as a leaf-failure record). -/
inductive DeriveItem where
  | validationError (v : ValidationError)
  | other (a : PyAny)

/-- The loop of `partition_errors`, with the two accumulating vectors. -/
def partitionGo : List DeriveItem → List PyLineError → List ValidationError →
    Except PyErr (List PyLineError × List ValidationError)
  | [], ls, vs => .ok (ls, vs)
  | i :: rest, ls, vs =>
    match i with
    | .validationError v => partitionGo rest ls (vs ++ [v])
    | .other a =>
      match PyLineError.tryFrom a with
      | .ok e => partitionGo rest (ls ++ [e]) vs
      | .error err => .error err

/-- `partition_errors`: split a batch into leaf failures and already-built
aggregates, preserving order within each class; an item that is neither fails
with the leaf-record parse error. -/
def partition_errors (items : List DeriveItem) :
    Except PyErr (List PyLineError × List ValidationError) :=
  partitionGo items [] []

/-- `ValidationError::derive`: partition the additional items, then build a
new aggregate whose parts are the additional items' parts followed by this
node's own parts, keeping this node's mode, message and prefix. -/
def ValidationError.derive (t : ValidationError) (items : List DeriveItem) :
    Except PyErr ValidationError :=
  match partition_errors items with
  | .error e => .error e
  | .ok (ls, vs) =>
    .ok (.mk (ls ++ t.lineErrors) (vs ++ t.valErrors) t.errorMode t.message t.locPre)

/-- `ValidationError::errors`: flatten, then map each leaf through `as_dict`,
with the URL prefix resolved once up front from the `include_url` flag. -/
def ValidationError.errors (t : ValidationError) (includeUrl includeContext : Bool)
    (version : String) : Except PyErr (List PyDict) :=
  let les := t.flatten_errors
  let urlPre := get_url_pre includeUrl version
  les.mapM (fun e => e.as_dict urlPre includeContext t.errorMode)

/-- `ValidationError::json`: flatten once, then stream every leaf through the
serializer; the first failure aborts the call, wrapped by `json_py_err`.  The
`indent` argument only chooses the external formatter's whitespace and does
not affect the streamed structure. -/
def ValidationError.json (t : ValidationError) (_indent : Option Nat)
    (includeUrl includeContext : Bool) (version : String) : Except PyErr JValue :=
  let urlPre := get_url_pre includeUrl version
  let les := t.flatten_errors
  match les.mapM (fun e => serializeLineError e urlPre includeContext t.errorMode) with
  | .ok maps => .ok (.arr (maps.map JValue.obj))
  | .error e => .error (json_py_err e)

/-- `ValidationError::display`: resolve the URL prefix from the environment
toggle, flatten, pretty-print the leaves joined by newlines; without an
override the header line is `"<n> validation error(s) for <title>"`, with an
override that string replaces the header verbatim. -/
def ValidationError.display (t : ValidationError) (hdrOverride : Option String)
    (omitUrlVar : Option String) (version : String) : Option String :=
  let urlPre := get_url_pre (include_url_env omitUrlVar) version
  let les := t.flatten_errors
  match pretty_py_line_errors t.errorMode les urlPre with
  | Option.none => Option.none
  | Option.some s =>
    Option.some (match hdrOverride with
      | Option.some p => p ++ "\n" ++ s
      | Option.none =>
        let count := les.length
        let plural := if count = 1 then "" else "s"
        toString count ++ " validation error" ++ plural ++ " for " ++ t.message ++ "\n" ++ s)

/-- A leaf `e` sits somewhere in the tree `t`, and `ps` is the concatenation,
outermost first, of the `loc_prefix` of every strict ancestor of the node
that directly holds `e` (the holding node's own prefix is not included: a
node's prefix applies only to failures reachable through its
`validation_errors`). -/
inductive HoldsLeaf : ValidationError → Location → PyLineError → Prop where
  | here (le : List PyLineError) (ve : List ValidationError) (em : ErrorMode)
      (m : String) (p : Location) (e : PyLineError) (h : e ∈ le) :
      HoldsLeaf (.mk le ve em m p) [] e
  | nested (le : List PyLineError) (ve : List ValidationError) (em : ErrorMode)
      (m : String) (p : Location) (c : ValidationError) (ps : Location)
      (e : PyLineError) (hc : c ∈ ve) (h : HoldsLeaf c ps e) :
      HoldsLeaf (.mk le ve em m p) (p ++ ps) e

/-- Structural induction principle for the aggregate tree. -/
def ValidationError.indOn (P : ValidationError → Prop)
    (h : ∀ le ve em m p, (∀ c ∈ ve, P c) → P (.mk le ve em m p)) :
    ∀ t, P t
  | .mk le ve em m p => h le ve em m p (fun c _ => ValidationError.indOn P h c)

/-- Substring test on strings, used to state the absence of the
documentation-URL line. -/
def strContains (s pat : String) : Bool :=
  s.data.tails.any (fun t => pat.data.isPrefixOf t)

/-- True exactly when a host value is a string or a `PydanticCustomError`
value — the two shapes the `type` field may legally take. -/
def isStrOrCustom : PyAny → Bool
  | .str _ => true
  | .customError _ _ _ => true
  | _ => false

/-- Unfolding of the `flatten_errors` accumulator loop into the declarative
list expression. -/
theorem flattenFold_eq (p : Location) (vs : List ValidationError) (res : List PyLineError) :
    ValidationError.flattenFold p vs res
      = res ++ vs.flatMap (fun v => v.flatten_errors.map (fun e => e.withPre p)) := by
  induction vs generalizing res with
  | nil => simp [ValidationError.flattenFold]
  | cons v vs ih =>
    rw [ValidationError.flattenFold, ih]
    simp [List.flatMap_cons, List.append_assoc]

/-- Defining equation of `flatten_errors`: the node's own line errors first,
then, for each nested aggregate in stored order, its flattened errors with
this node's prefix applied. -/
theorem flatten_errors_def (le : List PyLineError) (ve : List ValidationError)
    (em : ErrorMode) (m : String) (p : Location) :
    (ValidationError.mk le ve em m p).flatten_errors
      = le ++ ve.flatMap (fun v => v.flatten_errors.map (fun e => e.withPre p)) := by
  rw [ValidationError.flatten_errors, flattenFold_eq]

/-- Unfolding of the `error_count` accumulator loop. -/
theorem countFold_eq (vs : List ValidationError) (n : Nat) :
    ValidationError.countFold vs n = n + (vs.map ValidationError.error_count).sum := by
  induction vs generalizing n with
  | nil => simp [ValidationError.countFold]
  | cons v vs ih =>
    rw [ValidationError.countFold, ih]
    simp [Nat.add_assoc]

/-- Defining equation of `error_count`. -/
theorem error_count_def (le : List PyLineError) (ve : List ValidationError)
    (em : ErrorMode) (m : String) (p : Location) :
    (ValidationError.mk le ve em m p).error_count
      = le.length + (ve.map ValidationError.error_count).sum := by
  rw [ValidationError.error_count, countFold_eq]

/-- C3: for every aggregate tree, `error_count()` equals the length of the
sequence returned by `flatten_errors()`. -/
theorem c3_error_count_eq_flatten_length (t : ValidationError) :
    t.error_count = t.flatten_errors.length := by
  induction t using ValidationError.indOn with
  | h le ve em m p ih =>
    rw [error_count_def, flatten_errors_def]
    rw [List.length_append, List.length_flatMap]
    congr 1
    refine congrArg List.sum ?_
    refine List.map_congr_left ?_
    intro c hc
    simp [ih c hc]

/-- C4: `flatten_errors()` is deterministic (a pure function of the
unchanged tree), and its order is the node's own line errors first, in
stored order, then for each nested aggregate in insertion order the
recursively flattened (and prefixed) leaves of that aggregate. -/
theorem c4_flatten_deterministic_and_ordered (t : ValidationError) :
    t.flatten_errors = t.flatten_errors ∧
    t.flatten_errors = t.lineErrors
      ++ t.valErrors.flatMap (fun c => c.flatten_errors.map (fun e => e.withPre t.locPre)) := by
  refine ⟨rfl, ?_⟩
  cases t with
  | mk le ve em m p =>
    simpa [ValidationError.lineErrors, ValidationError.valErrors, ValidationError.locPre]
      using flatten_errors_def le ve em m p

/-- A successful `takeUtf8Bytes cs n` returns a prefix of `cs` whose UTF-8
byte size is exactly `n`. -/
theorem takeUtf8Bytes_eq_some (cs : List Char) (n : Nat) (pre : List Char)
    (h : takeUtf8Bytes cs n = Option.some pre) :
    (∃ suf, cs = pre ++ suf) ∧ byteSum pre = n := by
  induction cs generalizing n pre with
  | nil =>
    cases n with
    | zero =>
      simp [takeUtf8Bytes] at h
      subst h
      exact ⟨⟨[], rfl⟩, rfl⟩
    | succ k => simp [takeUtf8Bytes] at h
  | cons c cs ih =>
    cases n with
    | zero =>
      simp [takeUtf8Bytes] at h
      subst h
      exact ⟨⟨c :: cs, rfl⟩, rfl⟩
    | succ k =>
      rw [takeUtf8Bytes] at h
      by_cases hc : csize c ≤ k + 1
      · rw [if_pos hc] at h
        cases htk : takeUtf8Bytes cs (k + 1 - csize c) with
        | none => rw [htk] at h; simp at h
        | some pre' =>
          rw [htk] at h
          simp only [Option.map_some', Option.some.injEq] at h
          subst h
          obtain ⟨⟨suf, hsuf⟩, hsum⟩ := ih (k + 1 - csize c) pre' htk
          refine ⟨⟨suf, by rw [hsuf, List.cons_append]⟩, ?_⟩
          have hb : byteSum (c :: pre') = csize c + byteSum pre' := by
            simp [byteSum]
          omega
      · rw [if_neg hc] at h
        simp at h

/-- A successful `lastUtf8Bytes cs n` returns a suffix of `cs` whose UTF-8
byte size is exactly `n`. -/
theorem lastUtf8Bytes_eq_some (cs : List Char) (n : Nat) (suf : List Char)
    (h : lastUtf8Bytes cs n = Option.some suf) :
    (∃ pre, cs = pre ++ suf) ∧ byteSum suf = n := by
  rw [lastUtf8Bytes] at h
  cases htk : takeUtf8Bytes cs.reverse n with
  | none => rw [htk] at h; simp at h
  | some r =>
    rw [htk] at h
    simp only [Option.map_some', Option.some.injEq] at h
    obtain ⟨⟨s, hs⟩, hsum⟩ := takeUtf8Bytes_eq_some cs.reverse n r htk
    subst h
    constructor
    · refine ⟨s.reverse, ?_⟩
      have hrev := congrArg List.reverse hs
      simpa using hrev
    · simpa [byteSum, List.map_reverse, List.sum_reverse] using hsum

/-- On all-ASCII character sequences every byte offset within range is a
character boundary, and the first `n` bytes are the first `n` characters. -/
theorem takeUtf8Bytes_ascii (cs : List Char) (n : Nat) (ha : ∀ c ∈ cs, csize c = 1)
    (hn : n ≤ cs.length) : takeUtf8Bytes cs n = Option.some (cs.take n) := by
  induction cs generalizing n with
  | nil =>
    cases n with
    | zero => rfl
    | succ k => simp at hn
  | cons c cs ih =>
    cases n with
    | zero => rfl
    | succ k =>
      have hc : csize c = 1 := ha c (by simp)
      rw [takeUtf8Bytes, if_pos (by omega), hc]
      have hk : k + 1 - 1 = k := by omega
      rw [hk, ih k (fun x hx => ha x (by simp [hx])) (by simpa using hn)]
      rfl

/-- On all-ASCII character sequences the last `n` bytes are the last `n`
characters. -/
theorem lastUtf8Bytes_ascii (cs : List Char) (n : Nat) (ha : ∀ c ∈ cs, csize c = 1)
    (hn : n ≤ cs.length) : lastUtf8Bytes cs n = Option.some (cs.drop (cs.length - n)) := by
  rw [lastUtf8Bytes]
  rw [takeUtf8Bytes_ascii cs.reverse n
    (fun c hc => ha c (List.mem_reverse.mp hc)) (by simpa using hn)]
  simp only [Option.map_some']
  congr 1
  have h := List.reverse_take (l := cs.reverse) (n := n)
  simpa using h

/-- The UTF-8 byte size of an all-ASCII sequence is its character count. -/
theorem byteSum_ascii (cs : List Char) (ha : ∀ c ∈ cs, csize c = 1) :
    byteSum cs = cs.length := by
  induction cs with
  | nil => rfl
  | cons c cs ih =>
    have hb : byteSum (c :: cs) = csize c + byteSum cs := by simp [byteSum]
    rw [hb, ha c (by simp), ih (fun x hx => ha x (by simp [hx]))]
    simp [List.length_cons]
    omega

/-- C10: the truncation of `truncate_input_value!` is measured in UTF-8
bytes, not characters — a representation of at most 50 bytes is kept whole;
when the byte length exceeds 50, the kept pieces are the characters of the
first 25 bytes and of the last 24 bytes; the operation is defined only when
byte offsets 25 and `len - 24` fall on character boundaries, which holds for
every all-ASCII representation but not for every representation with
multi-byte characters (26 copies of a 2-byte character hit the panic). -/
theorem c10_truncation_byte_semantics (out v : String) :
    (utf8Len v ≤ 50 → truncate_input_value out v = Option.some (out ++ ", input_value=" ++ v))
    ∧ (∀ r, 50 < utf8Len v → truncate_input_value out v = Option.some r →
        ∃ pre suf, (∃ d1, v.data = pre ++ d1) ∧ (∃ d2, v.data = d2 ++ suf)
          ∧ byteSum pre = 25 ∧ byteSum suf = 24
          ∧ r = out ++ ", input_value=" ++ String.mk pre ++ "..." ++ String.mk suf)
    ∧ ((∀ c ∈ v.data, csize c = 1) → (truncate_input_value out v).isSome = true)
    ∧ truncate_input_value "" (String.mk (List.replicate 26 'é')) = Option.none := by
  refine ⟨?_, ?_, ?_, by decide⟩
  · intro h
    rw [truncate_input_value, if_neg (by omega)]
  · intro r h50 hr
    rw [truncate_input_value, if_pos h50] at hr
    cases h25 : takeUtf8Bytes v.data 25 with
    | none => rw [h25] at hr; simp at hr
    | some pre =>
      cases h24 : lastUtf8Bytes v.data 24 with
      | none => rw [h25, h24] at hr; simp at hr
      | some suf =>
        rw [h25, h24] at hr
        simp only [Option.some.injEq] at hr
        obtain ⟨⟨d1, hd1⟩, hs1⟩ := takeUtf8Bytes_eq_some v.data 25 pre h25
        obtain ⟨⟨d2, hd2⟩, hs2⟩ := lastUtf8Bytes_eq_some v.data 24 suf h24
        exact ⟨pre, suf, ⟨d1, hd1⟩, ⟨d2, hd2⟩, hs1, hs2, hr.symm⟩
  · intro ha
    have hlen : utf8Len v = v.data.length := byteSum_ascii v.data ha
    rw [truncate_input_value]
    by_cases h50 : 50 < utf8Len v
    · rw [if_pos h50]
      rw [takeUtf8Bytes_ascii v.data 25 ha (by omega),
          lastUtf8Bytes_ascii v.data 24 ha (by omega)]
      rfl
    · rw [if_neg h50]
      rfl

/-- Witness for C10: a 60-character ASCII representation is within the
truncation's domain. -/
theorem c10_truncation_byte_semantics_witness :
    (truncate_input_value "" (String.mk (List.replicate 60 'a'))).isSome = true :=
  (c10_truncation_byte_semantics "" (String.mk (List.replicate 60 'a'))).2.2.1 (by decide)

/-- Counterexample for C5: a representation of exactly 50 characters (25
ASCII characters followed by 25 two-byte characters, 75 UTF-8 bytes) is
truncated, not printed in full, refuting the claim's character-based
reading. -/
theorem c5_counterexample_fifty_chars_truncated :
    (String.mk (List.replicate 25 'a' ++ List.replicate 25 'é')).data.length = 50
    ∧ truncate_input_value "" (String.mk (List.replicate 25 'a' ++ List.replicate 25 'é'))
      = Option.some ("" ++ ", input_value=" ++ String.mk (List.replicate 25 'a') ++ "..."
          ++ String.mk (List.replicate 12 'é'))
    ∧ ("" ++ ", input_value=" ++ String.mk (List.replicate 25 'a') ++ "..."
          ++ String.mk (List.replicate 12 'é'))
      ≠ "" ++ ", input_value=" ++ String.mk (List.replicate 25 'a' ++ List.replicate 25 'é') := by
  refine ⟨by decide, by decide, by decide⟩

/-- C5 (amended): the 50/25/24 limits are UTF-8 byte counts, so for
representations whose characters are all single-byte (ASCII) the claim's
character counts are exact: at most 50 characters prints in full, and more
than 50 characters prints the first 25 characters, a three-dot ellipsis and
the last 24 characters. -/
theorem c5_truncation_ascii (out v : String) (ha : ∀ c ∈ v.data, csize c = 1) :
    (v.data.length ≤ 50 →
      truncate_input_value out v = Option.some (out ++ ", input_value=" ++ v))
    ∧ (50 < v.data.length →
      truncate_input_value out v
        = Option.some (out ++ ", input_value=" ++ String.mk (v.data.take 25) ++ "..."
            ++ String.mk (v.data.drop (v.data.length - 24)))) := by
  have hlen : utf8Len v = v.data.length := byteSum_ascii v.data ha
  constructor
  · intro h
    rw [truncate_input_value, if_neg (by omega)]
  · intro h
    rw [truncate_input_value, if_pos (by omega)]
    rw [takeUtf8Bytes_ascii v.data 25 ha (by omega),
        lastUtf8Bytes_ascii v.data 24 ha (by omega)]

/-- Witness for C5 (amended): a 51-character ASCII representation renders as
its first 25 characters, the ellipsis, and its last 24 characters. -/
theorem c5_truncation_ascii_witness :
    truncate_input_value "" (String.mk (List.replicate 51 'a'))
      = Option.some ("" ++ ", input_value=" ++ String.mk (List.replicate 25 'a') ++ "..."
          ++ String.mk (List.replicate 24 'a')) := by
  have h := (c5_truncation_ascii "" (String.mk (List.replicate 51 'a')) (by decide)).2 (by decide)
  rw [h]
  decide

/-- Applying the empty prefix to a leaf is the identity. -/
theorem withPre_nil (e : PyLineError) : e.withPre [] = e := rfl

/-- Prefix application composes: applying `q` then `p` equals applying
`p ++ q` once. -/
theorem withPre_withPre (e : PyLineError) (p q : Location) :
    (e.withPre q).withPre p = e.withPre (p ++ q) := by
  cases e with
  | mk et loc iv =>
    simp [PyLineError.withPre, Location.withPre, List.append_assoc]

/-- Soundness half: a leaf held anywhere in the tree appears in the
flattened sequence with exactly its accumulated strict-ancestor prefix. -/
theorem holdsLeaf_mem_flatten (t : ValidationError) (ps : Location) (e : PyLineError)
    (h : HoldsLeaf t ps e) : e.withPre ps ∈ t.flatten_errors := by
  induction h with
  | here le ve em m p e he =>
    rw [flatten_errors_def, withPre_nil]
    exact List.mem_append_left _ he
  | nested le ve em m p c ps e hc hsub ih =>
    rw [flatten_errors_def]
    refine List.mem_append_right _ ?_
    rw [List.mem_flatMap]
    refine ⟨c, hc, ?_⟩
    rw [List.mem_map]
    exact ⟨e.withPre ps, ih, withPre_withPre e p ps⟩

/-- Completeness half: every element of the flattened sequence is a held
leaf with its accumulated strict-ancestor prefix applied. -/
theorem mem_flatten_holdsLeaf (t : ValidationError) :
    ∀ x ∈ t.flatten_errors, ∃ ps e, HoldsLeaf t ps e ∧ x = e.withPre ps := by
  induction t using ValidationError.indOn with
  | h le ve em m p ih =>
    intro x hx
    rw [flatten_errors_def] at hx
    rcases List.mem_append.mp hx with hx | hx
    · exact ⟨[], x, HoldsLeaf.here le ve em m p x hx, (withPre_nil x).symm⟩
    · rcases List.mem_flatMap.mp hx with ⟨c, hc, hxc⟩
      rcases List.mem_map.mp hxc with ⟨y, hy, rfl⟩
      rcases ih c hc y hy with ⟨ps, e, he, rfl⟩
      exact ⟨p ++ ps, e, HoldsLeaf.nested le ve em m p c ps e hc he,
        withPre_withPre e p ps⟩

/-- Counterexample for C2: root `R` with `loc_prefix` `[a]` holding nested
`C` with `loc_prefix` `[b]` which directly holds leaf `L` at `[c]` — the
flattened location is `[a, c]`, not the claimed `[a, b, c]`: a node's own
`loc_prefix` is never applied to its own `line_errors`. -/
theorem c2_counterexample_child_prefix_dropped :
    ((ValidationError.mk []
        [ValidationError.mk
          [⟨.customError "x" "m" Option.none, [.key "c"], .none⟩] [] .python "C" [.key "b"]]
        .python "R" [.key "a"]).flatten_errors).map PyLineError.location
      = [[.key "a", .key "c"]]
    ∧ ([[.key "a", .key "c"]] : List Location) ≠ [[.key "a", .key "b", .key "c"]] :=
  ⟨rfl, by decide⟩

/-- C2 (amended): each node's `loc_prefix` is prepended only to the failures
reachable through its `validation_errors`, never to its own `line_errors`;
hence every flattened leaf carries exactly the concatenation, outermost
first, of the `loc_prefix` of every strict ancestor of the node directly
holding it (`HoldsLeaf` accumulates precisely those prefixes), and
conversely every flattened element arises that way.  In the claim's
three-level scenario a leaf directly held by `C` flattens to
`p1 ++ L.location`; `p1 ++ p2 ++ L.location` arises when the leaf sits one
aggregate deeper. -/
theorem c2_flatten_ancestor_prefixes :
    (∀ (t : ValidationError) (ps : Location) (e : PyLineError),
        HoldsLeaf t ps e → e.withPre ps ∈ t.flatten_errors)
    ∧ (∀ (t : ValidationError), ∀ x ∈ t.flatten_errors,
        ∃ ps e, HoldsLeaf t ps e ∧ x = e.withPre ps) :=
  ⟨holdsLeaf_mem_flatten, mem_flatten_holdsLeaf⟩

/-- Witness for C2 (amended): in the concrete counterexample tree, the leaf
appears flattened with exactly the root's prefix applied. -/
theorem c2_flatten_ancestor_prefixes_witness :
    (PyLineError.mk (.customError "x" "m" Option.none) [.key "c"] .none).withPre [.key "a"]
      ∈ (ValidationError.mk []
          [ValidationError.mk
            [⟨.customError "x" "m" Option.none, [.key "c"], .none⟩] [] .python "C" [.key "b"]]
          .python "R" [.key "a"]).flatten_errors :=
  c2_flatten_ancestor_prefixes.1
    (ValidationError.mk []
      [ValidationError.mk
        [⟨.customError "x" "m" Option.none, [.key "c"], .none⟩] [] .python "C" [.key "b"]]
      .python "R" [.key "a"])
    [.key "a"]
    ⟨.customError "x" "m" Option.none, [.key "c"], .none⟩
    (HoldsLeaf.nested []
      [ValidationError.mk
        [⟨.customError "x" "m" Option.none, [.key "c"], .none⟩] [] .python "C" [.key "b"]]
      .python "R" [.key "a"]
      (ValidationError.mk
        [⟨.customError "x" "m" Option.none, [.key "c"], .none⟩] [] .python "C" [.key "b"])
      [] ⟨.customError "x" "m" Option.none, [.key "c"], .none⟩
      (List.mem_singleton.mpr rfl)
      (HoldsLeaf.here
        [⟨.customError "x" "m" Option.none, [.key "c"], .none⟩] [] .python "C" [.key "b"]
        ⟨.customError "x" "m" Option.none, [.key "c"], .none⟩
        (List.mem_singleton.mpr rfl)))

/-- Characterization of the `partition_errors` loop: a successful run
appends, to each accumulator, the per-class projections of the items in
order. -/
theorem partitionGo_ok (items : List DeriveItem) :
    ∀ (ls0 : List PyLineError) (vs0 : List ValidationError) ls vs,
      partitionGo items ls0 vs0 = .ok (ls, vs) →
      ls = ls0 ++ items.filterMap (fun i => match i with
          | .validationError _ => Option.none
          | .other a => (PyLineError.tryFrom a).toOption)
      ∧ vs = vs0 ++ items.filterMap (fun i => match i with
          | .validationError v => Option.some v
          | .other _ => Option.none) := by
  induction items with
  | nil =>
    intro ls0 vs0 ls vs h
    simp only [partitionGo, Except.ok.injEq, Prod.mk.injEq] at h
    obtain ⟨h1, h2⟩ := h
    subst h1
    subst h2
    simp
  | cons i rest ih =>
    intro ls0 vs0 ls vs h
    cases i with
    | validationError v =>
      rw [partitionGo] at h
      obtain ⟨h1, h2⟩ := ih (ls0) (vs0 ++ [v]) ls vs h
      subst h1
      subst h2
      simp [List.filterMap_cons]
    | other a =>
      rw [partitionGo] at h
      cases hta : PyLineError.tryFrom a with
      | error err => rw [hta] at h; simp at h
      | ok e =>
        rw [hta] at h
        obtain ⟨h1, h2⟩ := ih (ls0 ++ [e]) vs0 ls vs h
        subst h1
        subst h2
        simp [List.filterMap_cons, hta, Except.toOption]

/-- C6: when the additional items are accepted, `derive` returns a new
aggregate whose `line_errors` are the additional leaf items (in order)
followed by this node's own line errors, whose `validation_errors` are the
additional aggregate items (in order) followed by this node's own nested
aggregates, and whose mode, message/title and `loc_prefix` are unchanged —
the receiver itself is immutable, `derive` only builds a new node. -/
theorem c6_derive_prepends_new_items (t : ValidationError) (items : List DeriveItem)
    (ls : List PyLineError) (vs : List ValidationError)
    (h : partition_errors items = .ok (ls, vs)) :
    t.derive items
      = .ok (.mk (ls ++ t.lineErrors) (vs ++ t.valErrors) t.errorMode t.message t.locPre)
    ∧ ls = items.filterMap (fun i => match i with
        | .validationError _ => Option.none
        | .other a => (PyLineError.tryFrom a).toOption)
    ∧ vs = items.filterMap (fun i => match i with
        | .validationError v => Option.some v
        | .other _ => Option.none) := by
  obtain ⟨h1, h2⟩ := partitionGo_ok items [] [] ls vs h
  refine ⟨?_, by simpa using h1, by simpa using h2⟩
  rw [ValidationError.derive, h]

/-- Witness for C6: deriving a one-leaf aggregate with one new leaf record
and one already-built aggregate prepends both, keeping the node's own data. -/
theorem c6_derive_prepends_new_items_witness :
    (ValidationError.mk
        [⟨.builtin "int_type" (.ok "Input should be a valid integer") Option.none,
          [.index 0], .none⟩]
        [] .python "T" [.key "root"]).derive
      [.other (.dict [("type", .str "missing"), ("loc", .list [])]),
       .validationError (ValidationError.mk [] [] .python "N" [])]
      = .ok (.mk
          [⟨.builtin "missing" (.ok "Field required") Option.none, [], PyAny.none⟩,
           ⟨.builtin "int_type" (.ok "Input should be a valid integer") Option.none,
            [.index 0], .none⟩]
          [ValidationError.mk [] [] .python "N" []]
          .python "T" [.key "root"]) :=
  (c6_derive_prepends_new_items
    (ValidationError.mk
      [⟨.builtin "int_type" (.ok "Input should be a valid integer") Option.none,
        [.index 0], .none⟩]
      [] .python "T" [.key "root"])
    [.other (.dict [("type", .str "missing"), ("loc", .list [])]),
     .validationError (ValidationError.mk [] [] .python "N" [])]
    [⟨.builtin "missing" (.ok "Field required") Option.none, [], PyAny.none⟩]
    [ValidationError.mk [] [] .python "N" []]
    rfl).1

/-- Reduction of a bind on a successful result. -/
theorem except_bind_ok {α β ε : Type} (a : α) (f : α → Except ε β) :
    Except.bind (.ok a) f = f a := rfl

/-- Reduction of a bind on a failed result. -/
theorem except_bind_error {α β ε : Type} (e : ε) (f : α → Except ε β) :
    Except.bind (.error e) f = .error e := rfl

/-- Unfolding of `PyLineError.tryFrom` on a dict argument into its explicit
bind chain. -/
theorem tryFrom_dict_def (d : PyDict) :
    PyLineError.tryFrom (.dict d)
      = Except.bind
          (match dictGet d "type" with
           | Option.some t => Except.ok t
           | Option.none => Except.error (.keyError "type"))
          (fun typeRaw =>
            Except.bind
              (match typeRaw with
               | .str s => Except.bind (get_as_dict d "ctx") (fun ctx => ErrorType.new s ctx)
               | .customError ts msg ctx => Except.ok (ErrorType.new_custom_error ts msg ctx)
               | _ => Except.error
                   (.typeError "`type` should be a `str` or `PydanticCustomError`"))
              (fun errorType =>
                Except.bind (Location.tryFrom (dictGet d "loc"))
                  (fun location =>
                    Except.ok { errorType := errorType, location := location,
                                inputValue := (dictGet d "input").getD PyAny.none }))) := rfl

/-- Counterexample for C7: a present `type` field holding an unrecognized
kind string is neither a recognized kind string nor a custom-error value,
yet the construction fails with a lookup error, not with the claimed
type-error. -/
theorem c7_counterexample_unknown_kind_not_type_error :
    PyLineError.tryFrom (.dict [("type", .str "definitely_not_a_kind")])
      = .error (.lookupError "Unknown error type: definitely_not_a_kind")
    ∧ PyErr.isTypeError (.lookupError "Unknown error type: definitely_not_a_kind") = false :=
  ⟨rfl, rfl⟩

/-- C7 (amended): building a leaf from a record — a missing required `type`
fails with a key-error naming that field; a `type` that is neither a string
nor a custom-error value fails with a type-error; a string `type` naming an
unrecognized kind fails with a lookup error (not a type-error); and when
construction succeeds with no `input` field, the leaf's input value is the
none value. -/
theorem c7_leaf_record_construction (d : PyDict) :
    (dictGet d "type" = Option.none →
      PyLineError.tryFrom (.dict d) = .error (.keyError "type"))
    ∧ (∀ v, dictGet d "type" = Option.some v → isStrOrCustom v = false →
      PyLineError.tryFrom (.dict d)
        = .error (.typeError "`type` should be a `str` or `PydanticCustomError`"))
    ∧ (∀ s ctx, dictGet d "type" = Option.some (.str s) → s ∉ knownKinds →
        get_as_dict d "ctx" = .ok ctx →
      PyLineError.tryFrom (.dict d) = .error (.lookupError ("Unknown error type: " ++ s)))
    ∧ (∀ le, PyLineError.tryFrom (.dict d) = .ok le → dictGet d "input" = Option.none →
      le.inputValue = PyAny.none) := by
  refine ⟨?_, ?_, ?_, ?_⟩
  · intro h
    rw [tryFrom_dict_def]
    simp only [h, except_bind_error]
  · intro v h hv
    rw [tryFrom_dict_def]
    simp only [h, except_bind_ok]
    cases v with
    | str s => simp [isStrOrCustom] at hv
    | customError a b c => simp [isStrOrCustom] at hv
    | none => rfl
    | bool b => rfl
    | int n => rfl
    | list xs => rfl
    | dict es => rfl
    | other => rfl
  · intro s ctx h hs hctx
    rw [tryFrom_dict_def]
    simp only [h, hctx, except_bind_ok]
    rw [ErrorType.new, if_neg hs]
    simp only [except_bind_error]
  · intro le hok hinput
    rw [tryFrom_dict_def] at hok
    cases hty : dictGet d "type" with
    | none =>
      rw [hty] at hok
      exact Except.noConfusion hok
    | some tv =>
      rw [hty] at hok
      simp only [except_bind_ok] at hok
      cases tv with
      | str s =>
        cases hctx : get_as_dict d "ctx" with
        | error e =>
          simp only [hctx, except_bind_error] at hok
          exact Except.noConfusion hok
        | ok ctx =>
          cases hnew : ErrorType.new s ctx with
          | error e =>
            simp only [hctx, hnew, except_bind_ok, except_bind_error] at hok
            exact Except.noConfusion hok
          | ok et =>
            cases hloc : Location.tryFrom (dictGet d "loc") with
            | error e =>
              simp only [hctx, hnew, hloc, except_bind_ok, except_bind_error] at hok
              exact Except.noConfusion hok
            | ok loc =>
              simp only [hctx, hnew, hloc, except_bind_ok, Except.ok.injEq] at hok
              subst hok
              simp [hinput]
      | customError a b c =>
        cases hloc : Location.tryFrom (dictGet d "loc") with
        | error e =>
          simp only [hloc, except_bind_ok, except_bind_error] at hok
          exact Except.noConfusion hok
        | ok loc =>
          simp only [hloc, except_bind_ok, Except.ok.injEq] at hok
          subst hok
          simp [hinput]
      | none => exact Except.noConfusion hok
      | bool b => exact Except.noConfusion hok
      | int n => exact Except.noConfusion hok
      | list xs => exact Except.noConfusion hok
      | dict es => exact Except.noConfusion hok
      | other => exact Except.noConfusion hok

/-- Witness for C7 (amended): the four behaviours at concrete records — no
`type`; an int `type`; an unknown kind string; and a well-formed record with
no `input`. -/
theorem c7_leaf_record_construction_witness :
    PyLineError.tryFrom (.dict []) = .error (.keyError "type")
    ∧ PyLineError.tryFrom (.dict [("type", .int 3)])
        = .error (.typeError "`type` should be a `str` or `PydanticCustomError`")
    ∧ PyLineError.tryFrom (.dict [("type", .str "nope")])
        = .error (.lookupError "Unknown error type: nope")
    ∧ (PyLineError.mk (.builtin "missing" (.ok "Field required") Option.none)
        [.key "f"] PyAny.none).inputValue = PyAny.none :=
  ⟨(c7_leaf_record_construction []).1 rfl,
   (c7_leaf_record_construction [("type", .int 3)]).2.1 (.int 3) rfl rfl,
   (c7_leaf_record_construction [("type", .str "nope")]).2.2.1 "nope" Option.none rfl
     (by decide) rfl,
   (c7_leaf_record_construction [("type", .str "missing"), ("loc", .list [.str "f"])]).2.2.2
     (PyLineError.mk (.builtin "missing" (.ok "Field required") Option.none)
       [.key "f"] PyAny.none) rfl rfl⟩

/-- C8: with no override, `display` produces the line
`"<n> validation error(s) for <title>"` — `n` the flattened leaf count, the
plural `s` present exactly when `n ≠ 1`, the title the aggregate's message —
followed by a newline and the pretty-printed leaves joined by newlines; with
an override string, that string verbatim replaces the header line and the
rest is unchanged. -/
theorem c8_display_header (t : ValidationError) (env : Option String) (ver : String)
    (s : String)
    (h : pretty_py_line_errors t.errorMode t.flatten_errors
          (get_url_pre (include_url_env env) ver) = Option.some s) :
    t.display Option.none env ver
      = Option.some (toString t.flatten_errors.length ++ " validation error"
          ++ (if t.flatten_errors.length = 1 then "" else "s") ++ " for " ++ t.message
          ++ "\n" ++ s)
    ∧ ∀ p, t.display (Option.some p) env ver = Option.some (p ++ "\n" ++ s) := by
  constructor
  · simp only [ValidationError.display, h]
  · intro p
    simp only [ValidationError.display, h]

/-- Witness for C8: a leafless aggregate displays the zero-count plural
header, and an override replaces it verbatim. -/
theorem c8_display_header_witness :
    (ValidationError.mk [] [] .python "T" []).display Option.none Option.none "2.0"
      = Option.some "0 validation errors for T\n"
    ∧ (ValidationError.mk [] [] .python "T" []).display (Option.some "custom header")
        Option.none "2.0" = Option.some "custom header\n" := by
  have h := c8_display_header (ValidationError.mk [] [] .python "T" []) Option.none "2.0" "" rfl
  refine ⟨?_, ?_⟩
  · rw [h.1]
    rfl
  · rw [h.2 "custom header"]
    rfl

/-- A mapM over `Option` succeeds when every element does. -/
theorem mapM_option_isSome {α β : Type} (f : α → Option β) :
    ∀ l : List α, (∀ x ∈ l, (f x).isSome = true) → (l.mapM f).isSome = true := by
  intro l
  induction l with
  | nil => intro _; rfl
  | cons a rest ih =>
    intro h
    rw [List.mapM_cons]
    cases hfa : f a with
    | none =>
      have ha := h a (by simp)
      rw [hfa] at ha
      simp at ha
    | some b =>
      have hr := ih (fun x hx => h x (by simp [hx]))
      cases hm : rest.mapM f with
      | none => rw [hm] at hr; simp at hr
      | some bs => simp [hfa, hm]

/-- Reduction of the monad-level bind on a successful `Except`. -/
theorem except_monad_bind_ok {ε α β : Type} (a : α) (f : α → Except ε β) :
    (Except.ok a >>= f) = f a := rfl

/-- A mapM over `Except` fails when some element does. -/
theorem mapM_except_error {ε α β : Type} (f : α → Except ε β) :
    ∀ (l : List α) (x : α), x ∈ l → ∀ e, f x = .error e →
      ∃ e2, l.mapM f = .error e2 := by
  intro l
  induction l with
  | nil =>
    intro x hx
    simp at hx
  | cons a rest ih =>
    intro x hx e hfe
    rw [List.mapM_cons]
    rcases List.mem_cons.mp hx with rfl | hx
    · refine ⟨e, ?_⟩
      rw [hfe]
      rfl
    · cases hfa : f a with
      | error e2 => exact ⟨e2, rfl⟩
      | ok b =>
        rcases ih x hx e hfe with ⟨e2, hm⟩
        refine ⟨e2, ?_⟩
        simp only [except_monad_bind_ok]
        rw [hm]
        rfl

/-- C9: a failing message render degrades to the placeholder
`(error rendering message: <failure>)` inside the pretty view, which keeps
producing the report, whereas in `json()` the same failure aborts the whole
call with `Error serializing ValidationError to JSON: ...` wrapping the
cause. -/
theorem c9_render_failure_policy (mode : ErrorMode) (urlPre : Option String)
    (le : PyLineError) (err : PyErr)
    (hrender : le.errorType.render_message mode = .error err) :
    le.pretty mode urlPre
      = prettyWithMsg le urlPre ("(error rendering message: " ++ err.display ++ ")")
    ∧ (∀ les : List PyLineError, (∀ l ∈ les, (l.pretty mode urlPre).isSome = true) →
        (pretty_py_line_errors mode les urlPre).isSome = true)
    ∧ (∀ (t : ValidationError) (ind : Option Nat) (iu ic : Bool) (ver : String),
        le ∈ t.flatten_errors → t.errorMode = mode →
        ∃ c, t.json ind iu ic ver
          = .error (.valueError ("Error serializing ValidationError to JSON: " ++ c))) := by
  refine ⟨?_, ?_, ?_⟩
  · simp only [PyLineError.pretty, hrender]
  · intro les hall
    have hs := mapM_option_isSome (fun e => PyLineError.pretty e mode urlPre) les hall
    rw [pretty_py_line_errors]
    cases hm : les.mapM (fun e => PyLineError.pretty e mode urlPre) with
    | none => rw [hm] at hs; simp at hs
    | some xs => rfl
  · intro t ind iu ic ver hmem hmode
    have hf : serializeLineError le (get_url_pre iu ver) ic t.errorMode
        = .error (py_err_json err) := by
      rw [hmode]
      simp only [serializeLineError, hrender, except_bind_error]
    obtain ⟨e2, hm⟩ := mapM_except_error
      (fun e => serializeLineError e (get_url_pre iu ver) ic t.errorMode)
      t.flatten_errors le hmem (py_err_json err) hf
    refine ⟨e2, ?_⟩
    simp only [ValidationError.json, hm]
    rfl

/-- Witness for C9: a leaf whose render outcome is a failure pretty-prints
with the placeholder message, and serializing an aggregate containing it
aborts with the wrapping value-error. -/
theorem c9_render_failure_policy_witness :
    (PyLineError.mk (.builtin "broken" (.error (.valueError "boom")) Option.none)
        [] PyAny.none).pretty .python Option.none
      = prettyWithMsg
          (PyLineError.mk (.builtin "broken" (.error (.valueError "boom")) Option.none)
            [] PyAny.none)
          Option.none "(error rendering message: ValueError: boom)"
    ∧ ∃ c, (ValidationError.mk
          [PyLineError.mk (.builtin "broken" (.error (.valueError "boom")) Option.none)
            [] PyAny.none]
          [] .python "T" []).json Option.none true true "2.0"
        = .error (.valueError ("Error serializing ValidationError to JSON: " ++ c)) := by
  have h := c9_render_failure_policy .python Option.none
    (PyLineError.mk (.builtin "broken" (.error (.valueError "boom")) Option.none)
      [] PyAny.none)
    (.valueError "boom") rfl
  refine ⟨by rw [h.1]; rfl, ?_⟩
  exact h.2.2 (ValidationError.mk
      [PyLineError.mk (.builtin "broken" (.error (.valueError "boom")) Option.none)
        [] PyAny.none]
      [] .python "T" []) Option.none true true "2.0"
    (List.mem_singleton.mpr rfl) rfl

/-- C1 demonstration: for an aggregate whose single leaf has the custom
error kind, with the URL-enable flag true and the URL prefix active, the
structured-record view omits `url` and the pretty/display text has no
documentation line — but the `json()` serializer does emit a `url` entry for
the custom-kind leaf (its branch lacks the custom-kind check present in
`as_dict` and `pretty`), contradicting the claim on the third view. -/
theorem c1_custom_error_url_inconsistency :
    ((ValidationError.mk
        [PyLineError.mk (.customError "my_error" "my message" Option.none)
          [.key "x"] PyAny.none]
        [] .python "T" []).errors true true "2.0").map
        (fun records => records.map (fun r => dictGet r "url"))
      = .ok [Option.none]
    ∧ (ValidationError.mk
        [PyLineError.mk (.customError "my_error" "my message" Option.none)
          [.key "x"] PyAny.none]
        [] .python "T" []).display Option.none Option.none "2.0"
      = Option.some
          "1 validation error for T\nx  my message [type=my_error, input_value=None, input_type=NoneType]"
    ∧ strContains
        "1 validation error for T\nx  my message [type=my_error, input_value=None, input_type=NoneType]"
        "For further information visit" = false
    ∧ (ValidationError.mk
        [PyLineError.mk (.customError "my_error" "my message" Option.none)
          [.key "x"] PyAny.none]
        [] .python "T" []).json Option.none true true "2.0"
      = .ok (.arr [.obj [("type", .str "my_error"), ("loc", .arr [.str "x"]),
          ("msg", .str "my message"), ("input", .null),
          ("url", .str "https://errors.pydantic.dev/2.0/v/my_error")]]) :=
  ⟨rfl, rfl, rfl, rfl⟩
